import Mathlib

/-!
Verification of the nECS storage layer: a growable contiguous array
(`vec.h`) and a sparse set built on top of it (`sparse.h`).

The repository ships interface declarations only (header files, no
function bodies), so the behaviour of every operation is modelled from
the specification, while the state types and signatures are embedded
from the headers.  Pointers into dense storage are modelled as indices,
`NULL` as `none`, and uninitialized element contents as an explicitly
quantified "junk" value supplied at the call site.
-/

/-- Embedding of the declared struct `ecs_vec_t` from
`src/include/datastructures/vec.h`: a type-erased contiguous buffer with
a fixed element size, a live-element count and a capacity.  The
`void *data` buffer is modelled as the list of the `count` live
elements (slots beyond `count` have indeterminate content and are never
read by contract). -/
structure ecs_vec_t (α : Type) where
  data : List α
  element_size : Nat
  count : Nat
  cap : Nat
deriving DecidableEq

/-- Modelled from the spec: body of `ecs_vec_init` is absent from src.
Creates an empty vector with the given element size and initial
capacity; `count = 0`. -/
def ecs_vec_init (α : Type) (element_size initial_cap : Nat) : ecs_vec_t α :=
  { data := [], element_size := element_size, count := 0, cap := initial_cap }

/-- Modelled from the spec: body of `ecs_vec_grow` is absent from src.
No-op if `new_cap <= cap`, otherwise reallocates to at least `new_cap`
preserving existing elements byte-for-byte. -/
def ecs_vec_grow {α : Type} (v : ecs_vec_t α) (new_cap : Nat) : ecs_vec_t α :=
  if new_cap ≤ v.cap then v else { v with cap := new_cap }

/-- Modelled from the spec: body of `ecs_vec_append` is absent from src.
Ensures capacity at least `count+1` (doubling if needed), increments
`count`, and returns the index of the newly created element slot
(`count-1`), modelling the returned pointer.  The slot is uninitialized
in the source; its indeterminate initial content is the `junk`
argument. -/
def ecs_vec_append {α : Type} (v : ecs_vec_t α) (junk : α) : ecs_vec_t α × Nat :=
  let v1 := if v.count + 1 ≤ v.cap then v else ecs_vec_grow v (max (2 * v.cap) (v.count + 1))
  ({ v1 with data := v1.data ++ [junk], count := v1.count + 1 }, v1.count)

/-- Modelled from the spec: writing element bytes through the pointer
returned by `ecs_vec_append` (the caller is responsible for writing the
element), as a store at the pointed-to index. -/
def ecs_vec_write {α : Type} (v : ecs_vec_t α) (i : Nat) (b : α) : ecs_vec_t α :=
  { v with data := v.data.set i b }

/-- Modelled from the spec: body of `ecs_vec_get` is absent from src.
Returns a pointer to the element at `index`; modelled as the element
itself, `none` when out of range (out of range is caller-checked UB in
the source). -/
def ecs_vec_get {α : Type} (v : ecs_vec_t α) (index : Nat) : Option α :=
  v.data[index]?

/-- Modelled from the spec: body of `ecs_vec_get_last` is absent from
src.  Pointer to the element at `count-1`. -/
def ecs_vec_get_last {α : Type} (v : ecs_vec_t α) : Option α :=
  v.data[v.count - 1]?

/-- Modelled from the spec: body of `ecs_vec_remove` is absent from src.
Removes the element at `index` by copying the last element into `index`
(when `index != count-1`) and decrementing `count` (swap-remove). -/
def ecs_vec_remove {α : Type} (v : ecs_vec_t α) (index : Nat) : ecs_vec_t α :=
  let last := v.count - 1
  if index = last then
    { v with data := v.data.take last, count := last }
  else
    match v.data[last]? with
    | some x => { v with data := (v.data.set index x).take last, count := last }
    | none => { v with data := v.data.take last, count := last }

/-- Modelled from the spec: body of `ecs_vec_size` is absent from src.
Returns `count`. -/
def ecs_vec_size {α : Type} (v : ecs_vec_t α) : Nat :=
  v.count

/-- Appending a list of elements one by one, writing each element's
bytes through the pointer returned by the corresponding
`ecs_vec_append` call (spec: append returns an uninitialized slot which
the caller fills).  `junk` is the indeterminate initial content of each
fresh slot. -/
def ecs_vec_append_write_all {α : Type} (v : ecs_vec_t α) (junk : α) : List α → ecs_vec_t α
  | [] => v
  | b :: bs =>
      let r := ecs_vec_append v junk
      ecs_vec_append_write_all (ecs_vec_write r.1 r.2 b) junk bs

-- Basic facts about the vector operations.

theorem ecs_vec_grow_data {α : Type} (v : ecs_vec_t α) (c : Nat) :
    (ecs_vec_grow v c).data = v.data := by
  unfold ecs_vec_grow; split <;> rfl

theorem ecs_vec_grow_count {α : Type} (v : ecs_vec_t α) (c : Nat) :
    (ecs_vec_grow v c).count = v.count := by
  unfold ecs_vec_grow; split <;> rfl

theorem ecs_vec_append_fst_data {α : Type} (v : ecs_vec_t α) (j : α) :
    (ecs_vec_append v j).1.data = v.data ++ [j] := by
  unfold ecs_vec_append
  split <;> simp [ecs_vec_grow_data]

theorem ecs_vec_append_fst_count {α : Type} (v : ecs_vec_t α) (j : α) :
    (ecs_vec_append v j).1.count = v.count + 1 := by
  unfold ecs_vec_append
  split <;> simp [ecs_vec_grow_count]

theorem ecs_vec_append_snd {α : Type} (v : ecs_vec_t α) (j : α) :
    (ecs_vec_append v j).2 = v.count := by
  unfold ecs_vec_append
  split <;> simp [ecs_vec_grow_count]

theorem ecs_vec_append_fst_cap {α : Type} (v : ecs_vec_t α) (j : α) :
    v.count + 1 ≤ (ecs_vec_append v j).1.cap := by
  unfold ecs_vec_append ecs_vec_grow
  split
  case isTrue h => simpa using h
  case isFalse h =>
    split <;> simp_all

theorem ecs_vec_append_write_data {α : Type} (v : ecs_vec_t α) (junk b : α)
    (hv : v.count = v.data.length) :
    (ecs_vec_write (ecs_vec_append v junk).1 (ecs_vec_append v junk).2 b).data
      = v.data ++ [b] := by
  unfold ecs_vec_write
  rw [ecs_vec_append_fst_data, ecs_vec_append_snd, hv]
  rw [List.set_append_right _ _ (Nat.le_refl _)]
  simp

theorem ecs_vec_append_write_all_spec {α : Type} (junk : α) (bs : List α) :
    ∀ (v : ecs_vec_t α), v.count = v.data.length →
      (ecs_vec_append_write_all v junk bs).data = v.data ++ bs ∧
      (ecs_vec_append_write_all v junk bs).count = v.count + bs.length := by
  induction bs with
  | nil => intro v hv; simp [ecs_vec_append_write_all]
  | cons b bs ih =>
      intro v hv
      have hdata := ecs_vec_append_write_data v junk b hv
      have hcount : (ecs_vec_write (ecs_vec_append v junk).1 (ecs_vec_append v junk).2 b).count
          = v.count + 1 := by
        unfold ecs_vec_write
        simp [ecs_vec_append_fst_count]
      have hwf : (ecs_vec_write (ecs_vec_append v junk).1 (ecs_vec_append v junk).2 b).count
          = (ecs_vec_write (ecs_vec_append v junk).1 (ecs_vec_append v junk).2 b).data.length := by
        rw [hcount, hdata]
        simp [hv]
      have h2 := ih (ecs_vec_write (ecs_vec_append v junk).1 (ecs_vec_append v junk).2 b) hwf
      unfold ecs_vec_append_write_all
      constructor
      · rw [h2.1, hdata]; simp
      · rw [h2.2, hcount]; simp; omega

/-- C10: grow frame condition: `grow(new_cap)` is a no-op when
`new_cap <= cap`; otherwise it reallocates to capacity at least
`new_cap`; in all cases it never shrinks capacity, never changes count,
and leaves every existing element unchanged. -/
theorem C10_grow_frame :
    ∀ (α : Type) (v : ecs_vec_t α) (new_cap : Nat),
      (new_cap ≤ v.cap → ecs_vec_grow v new_cap = v) ∧
      (v.cap < new_cap → new_cap ≤ (ecs_vec_grow v new_cap).cap) ∧
      v.cap ≤ (ecs_vec_grow v new_cap).cap ∧
      (ecs_vec_grow v new_cap).count = v.count ∧
      (ecs_vec_grow v new_cap).data = v.data := by
  intro α v new_cap
  unfold ecs_vec_grow
  by_cases h : new_cap ≤ v.cap
  · simp [h]
  · simp [h]
    omega

/-- C10 witness: a concrete growth of a 2-element vector from capacity 2
to capacity 5 keeps its data and count and reaches the requested
capacity. -/
theorem C10_grow_frame_witness :
    5 ≤ (ecs_vec_grow (ecs_vec_t.mk [1, 2] 4 2 2) 5).cap ∧
    (ecs_vec_grow (ecs_vec_t.mk [1, 2] 4 2 2) 5).count = 2 ∧
    (ecs_vec_grow (ecs_vec_t.mk [1, 2] 4 2 2) 5).data = [1, 2] :=
  ⟨(C10_grow_frame Nat (ecs_vec_t.mk [1, 2] 4 2 2) 5).2.1 (by decide),
   (C10_grow_frame Nat (ecs_vec_t.mk [1, 2] 4 2 2) 5).2.2.2.1,
   (C10_grow_frame Nat (ecs_vec_t.mk [1, 2] 4 2 2) 5).2.2.2.2⟩

/-- C9: append/read round trip: each `append` returns the slot index
`count-1` (the new slot, pointer modelled as index), increments count
and ensures capacity at least `count+1`; appending the elements of `bs`
to a freshly initialized vector, writing each element through the
returned pointer, then reading index `i < bs.length` via `get` yields
exactly the bytes written there. -/
theorem C9_append_read_round_trip :
    (∀ (α : Type) (v : ecs_vec_t α) (j : α),
      (ecs_vec_append v j).2 = v.count ∧
      (ecs_vec_append v j).1.count = v.count + 1 ∧
      v.count + 1 ≤ (ecs_vec_append v j).1.cap) ∧
    (∀ (α : Type) (es c0 : Nat) (junk : α) (bs : List α) (i : Nat), i < bs.length →
      ecs_vec_get (ecs_vec_append_write_all (ecs_vec_init α es c0) junk bs) i = bs[i]?) := by
  constructor
  · intro α v j
    exact ⟨ecs_vec_append_snd v j, ecs_vec_append_fst_count v j, ecs_vec_append_fst_cap v j⟩
  · intro α es c0 junk bs i hi
    have h := ecs_vec_append_write_all_spec junk bs (ecs_vec_init α es c0) rfl
    unfold ecs_vec_get
    rw [h.1]
    simp [ecs_vec_init]

/-- C9 witness: writing 10, 20, 30 into a fresh vector and reading index
1 returns 20. -/
theorem C9_append_read_round_trip_witness :
    ecs_vec_get (ecs_vec_append_write_all (ecs_vec_init Nat 4 0) 0 [10, 20, 30]) 1
      = [10, 20, 30][1]? :=
  C9_append_read_round_trip.2 Nat 4 0 0 [10, 20, 30] 1 (by decide)

/-- Embedding of the declared struct `ecs_sparse_t` from
`src/include/datastructures/sparse.h`, field for field: two dense
growable arrays (payload elements and owning entity ids), a field
`sparse_id` that the header declares as a single `uint32_t` scalar (the
adjacent comment calls it the sparse array, but the declaration is one
scalar, not a pointer to `sparse_cap` entries), the sparse capacity,
the alive count and the element size. -/
structure ecs_sparse_t where
  dense_element : ecs_vec_t (List Nat)
  dense_id : ecs_vec_t Nat
  sparse_id : Nat
  sparse_cap : Nat
  count : Nat
  element_size : Nat
deriving DecidableEq

/-- The declared signature of `ecs_sparse_add` in `sparse.h`: it
receives only the sparse-set pointer (the state) and returns a pointer
(modelled as an optional dense index) next to the updated state; the
declaration has no entity-id parameter. -/
def ecs_sparse_add_sig : Type := ecs_sparse_t → ecs_sparse_t × Option Nat

/-- Modelled from the spec: the sparse-set state as the specification
describes it (two parallel dense arrays plus a sparse lookup array of
length `sparse_cap`); the bodies, and the sparse array itself, are
absent from src (the header declares only the scalar `sparse_id`
above). -/
structure SparseSet where
  dense_element : ecs_vec_t (List Nat)
  dense_id : ecs_vec_t Nat
  sparse : List Nat
  sparse_cap : Nat
  count : Nat
  element_size : Nat
deriving DecidableEq

/-- Modelled from the spec: body of `ecs_sparse_init` is absent from
src.  All sparse entries start unmapped; with the lazy stale-entry
protocol any initial numeric content is unmapped while `count = 0`, so
the entries are initialized to 0.  Both dense arrays start empty. -/
def ecs_sparse_init (element_size sparse_cap : Nat) : SparseSet :=
  { dense_element := ecs_vec_init (List Nat) element_size 0
    dense_id := ecs_vec_init Nat 4 0
    sparse := List.replicate sparse_cap 0
    sparse_cap := sparse_cap
    count := 0
    element_size := element_size }

/-- Modelled from the spec: body of `ecs_sparse_has` is absent from
src.  True iff the sparse entry of `entity_id` resolves to a dense
index strictly below `count` whose owning-key slot equals
`entity_id`. -/
def ecs_sparse_has (s : SparseSet) (entity_id : Nat) : Bool :=
  match s.sparse[entity_id]? with
  | some i => decide (i < s.count) && decide (s.dense_id.data[i]? = some entity_id)
  | none => false

/-- Modelled from the spec: body of `ecs_sparse_add` is absent from src
(and the declaration lacks the entity-id parameter the spec gives it).
If the key is present, fail (`none`) and leave the set unchanged;
otherwise append a payload slot (uninitialized content `junk`) and an
owning-key slot, point `sparse[entity_id]` at the new dense index, bump
`count`, and return the new slot (pointer modelled as index). -/
def ecs_sparse_add (s : SparseSet) (entity_id : Nat) (junk : List Nat) :
    SparseSet × Option Nat :=
  if ecs_sparse_has s entity_id then (s, none)
  else
    ({ s with
        dense_element := (ecs_vec_append s.dense_element junk).1
        dense_id := (ecs_vec_append s.dense_id entity_id).1
        sparse := s.sparse.set entity_id s.count
        count := s.count + 1 }, some s.count)

/-- Modelled from the spec: body of `ecs_sparse_get` is absent from
src.  Pointer to the payload of `entity_id` when present, else
`none`. -/
def ecs_sparse_get (s : SparseSet) (entity_id : Nat) : Option (List Nat) :=
  if ecs_sparse_has s entity_id then s.dense_element.data[s.sparse.getD entity_id 0]?
  else none

/-- Modelled from the spec: body of `ecs_sparse_remove` is absent from
src.  No-op when absent.  When present at dense index `i` with
`last = count-1`: if `i != last`, copy the payload and owning key at
`last` into slot `i` and re-point the moved key's sparse entry at `i`;
in both cases shrink both dense arrays by one. -/
def ecs_sparse_remove (s : SparseSet) (entity_id : Nat) : SparseSet :=
  if ecs_sparse_has s entity_id then
    let i := s.sparse.getD entity_id 0
    let last := s.count - 1
    let movedKey := s.dense_id.data.getD last 0
    if i = last then
      { s with
          dense_element := ecs_vec_remove s.dense_element i
          dense_id := ecs_vec_remove s.dense_id i
          count := last }
    else
      { s with
          dense_element := ecs_vec_remove s.dense_element i
          dense_id := ecs_vec_remove s.dense_id i
          sparse := s.sparse.set movedKey i
          count := last }
  else s

/-- Modelled from the spec: body of `ecs_sparse_component_at` is absent
from src.  Direct dense payload access. -/
def ecs_sparse_component_at (s : SparseSet) (index : Nat) : Option (List Nat) :=
  ecs_vec_get s.dense_element index

/-- Modelled from the spec: body of `ecs_sparse_entity_at` is absent
from src.  Direct dense owning-key access. -/
def ecs_sparse_entity_at (s : SparseSet) (index : Nat) : Nat :=
  s.dense_id.data.getD index 0

/-- Modelled from the spec: body of `ecs_sparse_count` is absent from
src.  Number of mapped keys. -/
def ecs_sparse_count (s : SparseSet) : Nat :=
  s.count

/-- One caller-visible mutation of a sparse set: an `add` of a key (with
the indeterminate initial payload content of the fresh slot) or a
`remove` of a key. -/
inductive SpOp where
  | addOp (entity_id : Nat) (junk : List Nat)
  | removeOp (entity_id : Nat)
deriving DecidableEq

/-- Apply one mutation. -/
def runOp (s : SparseSet) : SpOp → SparseSet
  | .addOp k j => (ecs_sparse_add s k j).1
  | .removeOp k => ecs_sparse_remove s k

/-- Apply a sequence of mutations in order. -/
def runOps (s : SparseSet) (ops : List SpOp) : SparseSet :=
  ops.foldl runOp s

/-- The operation's key is inside the declared key universe
`[0, sparse_cap)` (the documented precondition of the key-taking
operations). -/
def opOk (cap : Nat) : SpOp → Bool
  | .addOp k _ => decide (k < cap)
  | .removeOp k => decide (k < cap)

/-- States reachable from a freshly initialized sparse set by add and
remove operations respecting the key-universe precondition. -/
def reachableFrom (element_size sparse_cap : Nat) (s : SparseSet) : Prop :=
  ∃ ops : List SpOp, (∀ op ∈ ops, opOk sparse_cap op = true) ∧
    runOps (ecs_sparse_init element_size sparse_cap) ops = s

/-- Structural wellformedness: both dense arrays hold exactly `count`
elements (and their cached vector counts agree), and the sparse array
has exactly `sparse_cap` entries. -/
@[reducible] def sparseWF (s : SparseSet) : Prop :=
  s.dense_element.data.length = s.count ∧
  s.dense_id.data.length = s.count ∧
  s.dense_element.count = s.count ∧
  s.dense_id.count = s.count ∧
  s.sparse.length = s.sparse_cap

/-- The back-pointing half of the bidirectional consistency invariant:
every live dense slot's owning key has a sparse entry pointing right
back at that slot. -/
@[reducible] def sparseInv (s : SparseSet) : Prop :=
  ∀ i, i < s.count → s.sparse[s.dense_id.data.getD i 0]? = some i

/-- The full internal invariant maintained by the mutations. -/
@[reducible] def goodState (s : SparseSet) : Prop :=
  sparseWF s ∧ sparseInv s

/-- The bidirectional consistency property as the spec states it: every
dense slot `i < count` holds a key that is mapped and whose lookup
resolves to `i`, and every mapped key's sparse entry is a dense index
below `count` whose owning-key slot is that key. -/
def sparseBidir (s : SparseSet) : Prop :=
  (∀ i, i < ecs_sparse_count s →
    ecs_sparse_has s (ecs_sparse_entity_at s i) = true ∧
    s.sparse.getD (ecs_sparse_entity_at s i) 0 = i) ∧
  (∀ k, ecs_sparse_has s k = true →
    s.sparse.getD k 0 < ecs_sparse_count s ∧
    ecs_sparse_entity_at s (s.sparse.getD k 0) = k)

-- Characterization of membership and helper lemmas.

theorem ecs_sparse_has_iff (s : SparseSet) (k : Nat) :
    ecs_sparse_has s k = true ↔
      ∃ i, s.sparse[k]? = some i ∧ i < s.count ∧ s.dense_id.data[i]? = some k := by
  unfold ecs_sparse_has
  cases h : s.sparse[k]? with
  | none => simp
  | some i => simp [h, and_assoc]

theorem ecs_sparse_has_false_of_none (s : SparseSet) (k : Nat)
    (h : s.sparse[k]? = none) : ecs_sparse_has s k = false := by
  unfold ecs_sparse_has
  rw [h]

theorem sparse_getD_of_getElem (s : SparseSet) (k i : Nat)
    (h : s.sparse[k]? = some i) : s.sparse.getD k 0 = i := by
  rw [List.getD_eq_getElem?_getD, h]
  rfl

theorem dense_getD_of_getElem (s : SparseSet) (i k : Nat)
    (h : s.dense_id.data[i]? = some k) : s.dense_id.data.getD i 0 = k := by
  rw [List.getD_eq_getElem?_getD, h]
  rfl

theorem sparseInv_getElem (s : SparseSet) (hinv : sparseInv s) (i k : Nat)
    (hi : i < s.count) (hk : s.dense_id.data[i]? = some k) :
    s.sparse[k]? = some i := by
  have := hinv i hi
  rwa [dense_getD_of_getElem s i k hk] at this

theorem sparseInv_inj (s : SparseSet) (hinv : sparseInv s) (i1 i2 k : Nat)
    (h1 : i1 < s.count) (h2 : i2 < s.count)
    (hk1 : s.dense_id.data[i1]? = some k) (hk2 : s.dense_id.data[i2]? = some k) :
    i1 = i2 := by
  have e1 := sparseInv_getElem s hinv i1 k h1 hk1
  have e2 := sparseInv_getElem s hinv i2 k h2 hk2
  rw [e1] at e2
  exact Option.some.inj e2

/-- C5: membership semantics with lazy stale-entry invalidation: `has`
returns true exactly when the sparse entry of the key is a dense index
below `count` whose owning-key slot equals the key; consequently a key
just removed from a consistent state is never reported present through
its stale sparse entry. -/
theorem C5_has_semantics :
    (∀ (s : SparseSet) (k : Nat),
      ecs_sparse_has s k = true ↔
        ∃ i, s.sparse[k]? = some i ∧ i < ecs_sparse_count s ∧
          s.dense_id.data[i]? = some k) ∧
    (∀ (s : SparseSet) (k : Nat), ecs_sparse_has s k = false →
      ecs_sparse_remove s k = s) := by
  constructor
  · intro s k
    exact ecs_sparse_has_iff s k
  · intro s k h
    unfold ecs_sparse_remove
    simp [h]

/-- C5 witness: in the concrete state reached by adding keys 0 and 1 and
removing key 1, the stale sparse entry of key 1 does not satisfy the
membership characterization, and removal of the absent key 1 is the
identity. -/
theorem C5_has_semantics_witness :
    ecs_sparse_remove
        (ecs_sparse_remove (runOps (ecs_sparse_init 4 4) [.addOp 0 [10], .addOp 1 [20]]) 1) 1
      = ecs_sparse_remove (runOps (ecs_sparse_init 4 4) [.addOp 0 [10], .addOp 1 [20]]) 1 :=
  C5_has_semantics.2
    (ecs_sparse_remove (runOps (ecs_sparse_init 4 4) [.addOp 0 [10], .addOp 1 [20]]) 1) 1
    (by decide)

/-- C3: `add` on an already-present key fails cleanly: it returns the
null pointer and the state component of the result is the unchanged
input state (count, mappings and dense contents all identical). -/
theorem C3_add_present_fails :
    ∀ (s : SparseSet) (k : Nat) (junk : List Nat),
      ecs_sparse_has s k = true → ecs_sparse_add s k junk = (s, none) := by
  intro s k junk h
  unfold ecs_sparse_add
  simp [h]

/-- C3 witness: adding key 0 again after it was added leaves the
concrete two-element state unchanged and returns the null pointer. -/
theorem C3_add_present_fails_witness :
    ecs_sparse_add (runOps (ecs_sparse_init 4 4) [.addOp 0 [10], .addOp 1 [20]]) 0 [99]
      = (runOps (ecs_sparse_init 4 4) [.addOp 0 [10], .addOp 1 [20]], none) :=
  C3_add_present_fails (runOps (ecs_sparse_init 4 4) [.addOp 0 [10], .addOp 1 [20]]) 0 [99]
    (by decide)

/-- C4: `remove` on an absent key is a defined no-op: the whole state
(count, every mapping and both dense arrays) is returned unchanged. -/
theorem C4_remove_absent_noop :
    ∀ (s : SparseSet) (k : Nat),
      ecs_sparse_has s k = false → ecs_sparse_remove s k = s := by
  intro s k h
  unfold ecs_sparse_remove
  simp [h]

/-- C4 witness: removing the never-added key 3 from a concrete
two-element state returns it unchanged. -/
theorem C4_remove_absent_noop_witness :
    ecs_sparse_remove (runOps (ecs_sparse_init 4 4) [.addOp 0 [10], .addOp 1 [20]]) 3
      = runOps (ecs_sparse_init 4 4) [.addOp 0 [10], .addOp 1 [20]] :=
  C4_remove_absent_noop (runOps (ecs_sparse_init 4 4) [.addOp 0 [10], .addOp 1 [20]]) 3
    (by decide)

/-- C7: the declared `ecs_sparse_add` receives only the sparse-set
state and no entity-id argument, so any operation of that declared
signature is a function of the state alone: equal states give equal
results (same returned pointer and same resulting state, hence the same
mapped key); no caller-chosen key enters through this interface. -/
theorem C7_add_signature_state_determined :
    ∀ (f : ecs_sparse_add_sig) (s1 s2 : ecs_sparse_t),
      s1 = s2 → f s1 = f s2 := by
  intro f s1 s2 h
  rw [h]

/-- C7 witness: a concrete operation of the declared signature applied
twice to a concrete state gives equal results. -/
theorem C7_add_signature_state_determined_witness :
    (fun s : ecs_sparse_t => (s, (none : Option Nat)))
        (ecs_sparse_t.mk (ecs_vec_init (List Nat) 4 0) (ecs_vec_init Nat 4 0) 0 4 0 4)
      = (fun s : ecs_sparse_t => (s, (none : Option Nat)))
        (ecs_sparse_t.mk (ecs_vec_init (List Nat) 4 0) (ecs_vec_init Nat 4 0) 0 4 0 4) :=
  C7_add_signature_state_determined (fun s => (s, none))
    (ecs_sparse_t.mk (ecs_vec_init (List Nat) 4 0) (ecs_vec_init Nat 4 0) 0 4 0 4)
    (ecs_sparse_t.mk (ecs_vec_init (List Nat) 4 0) (ecs_vec_init Nat 4 0) 0 4 0 4)
    rfl

/-- C8: in the declared struct `ecs_sparse_t` the sparse lookup
component is the single scalar field `sparse_id`: any two values read
from it in one state coincide, and a second store overwrites the first,
so the declared state records at most one sparse-to-dense index at any
time, whatever `sparse_cap` and `count` hold. -/
theorem C8_sparse_component_is_scalar :
    (∀ (s : ecs_sparse_t) (v1 v2 : Nat),
      v1 = s.sparse_id → v2 = s.sparse_id → v1 = v2) ∧
    (∀ (s : ecs_sparse_t) (v1 v2 : Nat),
      ({ { s with sparse_id := v1 } with sparse_id := v2 } : ecs_sparse_t).sparse_id = v2) := by
  constructor
  · intro s v1 v2 h1 h2
    rw [h1, h2]
  · intro s v1 v2
    rfl

/-- C8 witness: on a concrete declared state with `sparse_cap = 4`, two
reads of the sparse component coincide. -/
theorem C8_sparse_component_is_scalar_witness :
    (7 : Nat) = 7 :=
  C8_sparse_component_is_scalar.1
    (ecs_sparse_t.mk (ecs_vec_init (List Nat) 4 0) (ecs_vec_init Nat 4 0) 7 4 0 4)
    7 7 rfl rfl

-- List access helpers used throughout the sparse-set proofs.

theorem lt_of_getElem?_some {α : Type} (l : List α) (i : Nat) (x : α)
    (h : l[i]? = some x) : i < l.length := by
  by_contra hc
  rw [List.getElem?_eq_none (by omega)] at h
  exact Option.noConfusion h

theorem getD_getElem? {α : Type} (l : List α) (i : Nat) (d : α)
    (h : i < l.length) : l[i]? = some (l.getD i d) := by
  rw [List.getD_eq_getElem?_getD]
  cases hh : l[i]? with
  | none =>
      rw [List.getElem?_eq_none_iff] at hh
      omega
  | some x => rfl

theorem getD_append_left {α : Type} (l l2 : List α) (i : Nat) (d : α)
    (h : i < l.length) : (l ++ l2).getD i d = l.getD i d := by
  rw [List.getD_eq_getElem?_getD, List.getD_eq_getElem?_getD,
    List.getElem?_append_left h]

theorem getD_concat_length {α : Type} (l : List α) (a : α) (d : α) :
    (l ++ [a]).getD l.length d = a := by
  rw [List.getD_eq_getElem?_getD, List.getElem?_concat_length]
  rfl

theorem getD_take {α : Type} (l : List α) (n j : Nat) (d : α) (h : j < n) :
    (l.take n).getD j d = l.getD j d := by
  rw [List.getD_eq_getElem?_getD, List.getD_eq_getElem?_getD,
    List.getElem?_take_of_lt h]

theorem getD_set_self {α : Type} (l : List α) (i : Nat) (x d : α)
    (h : i < l.length) : (l.set i x).getD i d = x := by
  rw [List.getD_eq_getElem?_getD, List.getElem?_set_self h]
  rfl

theorem getD_set_ne {α : Type} (l : List α) (i j : Nat) (x d : α)
    (h : i ≠ j) : (l.set i x).getD j d = l.getD j d := by
  rw [List.getD_eq_getElem?_getD, List.getD_eq_getElem?_getD,
    List.getElem?_set_ne h]

-- Shape of the vector swap-remove.

theorem ecs_vec_remove_count {α : Type} (v : ecs_vec_t α) (i : Nat) :
    (ecs_vec_remove v i).count = v.count - 1 := by
  simp only [ecs_vec_remove]
  split
  · rfl
  · split <;> rfl

theorem ecs_vec_remove_data_eq_last {α : Type} (v : ecs_vec_t α) (i : Nat)
    (h : i = v.count - 1) :
    (ecs_vec_remove v i).data = v.data.take (v.count - 1) := by
  unfold ecs_vec_remove
  simp [h]

theorem ecs_vec_remove_data_swap {α : Type} (v : ecs_vec_t α) (i : Nat) (x : α)
    (h : i ≠ v.count - 1) (hx : v.data[v.count - 1]? = some x) :
    (ecs_vec_remove v i).data = (v.data.set i x).take (v.count - 1) := by
  unfold ecs_vec_remove
  simp [h, hx]

-- Shape of the sparse-set mutations.

theorem ecs_sparse_add_noop (s : SparseSet) (k : Nat) (junk : List Nat)
    (h : ecs_sparse_has s k = true) : (ecs_sparse_add s k junk).1 = s := by
  unfold ecs_sparse_add
  simp [h]

theorem ecs_sparse_add_state (s : SparseSet) (k : Nat) (junk : List Nat)
    (h : ecs_sparse_has s k = false) :
    (ecs_sparse_add s k junk).1.dense_element.data = s.dense_element.data ++ [junk] ∧
    (ecs_sparse_add s k junk).1.dense_id.data = s.dense_id.data ++ [k] ∧
    (ecs_sparse_add s k junk).1.sparse = s.sparse.set k s.count ∧
    (ecs_sparse_add s k junk).1.count = s.count + 1 ∧
    (ecs_sparse_add s k junk).1.sparse_cap = s.sparse_cap ∧
    (ecs_sparse_add s k junk).1.dense_element.count = s.dense_element.count + 1 ∧
    (ecs_sparse_add s k junk).1.dense_id.count = s.dense_id.count + 1 ∧
    (ecs_sparse_add s k junk).2 = some s.count := by
  unfold ecs_sparse_add
  simp [h, ecs_vec_append_fst_data, ecs_vec_append_fst_count]

theorem ecs_sparse_add_sparse_cap (s : SparseSet) (k : Nat) (junk : List Nat) :
    (ecs_sparse_add s k junk).1.sparse_cap = s.sparse_cap := by
  unfold ecs_sparse_add
  split <;> rfl

theorem ecs_sparse_remove_state_last (s : SparseSet) (k : Nat)
    (h : ecs_sparse_has s k = true) (heq : s.sparse.getD k 0 = s.count - 1) :
    ecs_sparse_remove s k =
      { s with
          dense_element := ecs_vec_remove s.dense_element (s.sparse.getD k 0)
          dense_id := ecs_vec_remove s.dense_id (s.sparse.getD k 0)
          count := s.count - 1 } := by
  rw [List.getD_eq_getElem?_getD] at heq
  unfold ecs_sparse_remove
  simp [h, heq]

theorem ecs_sparse_remove_state_swap (s : SparseSet) (k : Nat)
    (h : ecs_sparse_has s k = true) (hne : s.sparse.getD k 0 ≠ s.count - 1) :
    ecs_sparse_remove s k =
      { s with
          dense_element := ecs_vec_remove s.dense_element (s.sparse.getD k 0)
          dense_id := ecs_vec_remove s.dense_id (s.sparse.getD k 0)
          sparse := s.sparse.set (s.dense_id.data.getD (s.count - 1) 0) (s.sparse.getD k 0)
          count := s.count - 1 } := by
  rw [List.getD_eq_getElem?_getD] at hne
  unfold ecs_sparse_remove
  simp [h, hne]

theorem ecs_sparse_remove_sparse_cap (s : SparseSet) (k : Nat) :
    (ecs_sparse_remove s k).sparse_cap = s.sparse_cap := by
  by_cases h : ecs_sparse_has s k
  · by_cases heq : s.sparse.getD k 0 = s.count - 1
    · rw [ecs_sparse_remove_state_last s k h heq]
    · rw [ecs_sparse_remove_state_swap s k h heq]
  · rw [C4_remove_absent_noop s k (by simpa using h)]

theorem ecs_sparse_add_preserves_good (s : SparseSet) (k : Nat) (junk : List Nat)
    (hg : goodState s) (hk : k < s.sparse_cap) :
    goodState (ecs_sparse_add s k junk).1 := by
  by_cases h : ecs_sparse_has s k
  · rw [ecs_sparse_add_noop s k junk h]
    exact hg
  · have h2 : ecs_sparse_has s k = false := by simpa using h
    obtain ⟨⟨hP, hD, hPc, hDc, hSP⟩, hinv⟩ := hg
    obtain ⟨e1, e2, e3, e4, e5, e6, e7, _⟩ := ecs_sparse_add_state s k junk h2
    refine ⟨⟨?_, ?_, ?_, ?_, ?_⟩, ?_⟩
    · rw [e1, e4]; simp [hP]
    · rw [e2, e4]; simp [hD]
    · rw [e6, e4, hPc]
    · rw [e7, e4, hDc]
    · rw [e3, e5]; simp [hSP]
    · intro i hi
      rw [e4] at hi
      rw [e2, e3]
      rcases (by omega : i < s.count ∨ i = s.count) with hlt | heqi
      · have hilen : i < s.dense_id.data.length := by omega
        rw [getD_append_left _ _ _ _ hilen]
        have hkey : s.dense_id.data[i]? = some (s.dense_id.data.getD i 0) :=
          getD_getElem? _ _ _ hilen
        have hne : k ≠ s.dense_id.data.getD i 0 := by
          intro hEq
          have hhas : ecs_sparse_has s k = true := by
            rw [ecs_sparse_has_iff]
            refine ⟨i, ?_, hlt, ?_⟩
            · rw [hEq]; exact hinv i hlt
            · rw [hkey, hEq]
          rw [hhas] at h2
          exact Bool.noConfusion h2
        rw [List.getElem?_set_ne hne]
        exact hinv i hlt
      · subst heqi
        rw [← hD, getD_concat_length]
        exact List.getElem?_set_self (by rw [hSP]; exact hk)

theorem ecs_sparse_remove_preserves_good (s : SparseSet) (k : Nat)
    (hg : goodState s) : goodState (ecs_sparse_remove s k) := by
  by_cases h : ecs_sparse_has s k
  case neg =>
    rw [C4_remove_absent_noop s k (by simpa using h)]
    exact hg
  case pos =>
    obtain ⟨⟨hP, hD, hPc, hDc, hSP⟩, hinv⟩ := hg
    obtain ⟨i, hsk, hi, hDik⟩ := (ecs_sparse_has_iff s k).mp h
    have hgd : s.sparse.getD k 0 = i := sparse_getD_of_getElem s k i hsk
    have hlastD : s.dense_id.data[s.count - 1]? =
        some (s.dense_id.data.getD (s.count - 1) 0) :=
      getD_getElem? _ _ _ (by omega)
    have hSPmk : s.sparse[s.dense_id.data.getD (s.count - 1) 0]? = some (s.count - 1) :=
      hinv _ (by omega)
    have hmklen : s.dense_id.data.getD (s.count - 1) 0 < s.sparse.length :=
      lt_of_getElem?_some _ _ _ hSPmk
    by_cases heq : s.sparse.getD k 0 = s.count - 1
    · rw [ecs_sparse_remove_state_last s k h heq]
      have hPe : (ecs_vec_remove s.dense_element (s.sparse.getD k 0)).data =
          s.dense_element.data.take (s.count - 1) := by
        have h3 := ecs_vec_remove_data_eq_last s.dense_element (s.sparse.getD k 0)
          (by rw [hPc]; exact heq)
        rwa [hPc] at h3
      have hDe : (ecs_vec_remove s.dense_id (s.sparse.getD k 0)).data =
          s.dense_id.data.take (s.count - 1) := by
        have h3 := ecs_vec_remove_data_eq_last s.dense_id (s.sparse.getD k 0)
          (by rw [hDc]; exact heq)
        rwa [hDc] at h3
      refine ⟨⟨?_, ?_, ?_, ?_, ?_⟩, ?_⟩
      · show (ecs_vec_remove s.dense_element (s.sparse.getD k 0)).data.length = s.count - 1
        rw [hPe]
        simp [hP]
      · show (ecs_vec_remove s.dense_id (s.sparse.getD k 0)).data.length = s.count - 1
        rw [hDe]
        simp [hD]
      · show (ecs_vec_remove s.dense_element (s.sparse.getD k 0)).count = s.count - 1
        rw [ecs_vec_remove_count, hPc]
      · show (ecs_vec_remove s.dense_id (s.sparse.getD k 0)).count = s.count - 1
        rw [ecs_vec_remove_count, hDc]
      · exact hSP
      · intro j hj
        have hj2 : j < s.count - 1 := hj
        show s.sparse[(ecs_vec_remove s.dense_id (s.sparse.getD k 0)).data.getD j 0]? = some j
        rw [hDe, getD_take _ _ _ _ hj2]
        exact hinv j (by omega)
    · rw [ecs_sparse_remove_state_swap s k h heq]
      have hidx : s.sparse.getD k 0 < s.count - 1 := by
        rw [hgd] at heq ⊢
        omega
      have hPe : (ecs_vec_remove s.dense_element (s.sparse.getD k 0)).data =
          (s.dense_element.data.set (s.sparse.getD k 0)
            (s.dense_element.data.getD (s.count - 1) [])).take (s.count - 1) := by
        have hPlast : s.dense_element.data[s.dense_element.count - 1]? =
            some (s.dense_element.data.getD (s.count - 1) []) := by
          rw [hPc]
          exact getD_getElem? _ _ _ (by omega)
        have h3 := ecs_vec_remove_data_swap s.dense_element (s.sparse.getD k 0)
          (s.dense_element.data.getD (s.count - 1) []) (by rw [hPc]; omega) hPlast
        rwa [hPc] at h3
      have hDe : (ecs_vec_remove s.dense_id (s.sparse.getD k 0)).data =
          (s.dense_id.data.set (s.sparse.getD k 0)
            (s.dense_id.data.getD (s.count - 1) 0)).take (s.count - 1) := by
        have hDlast : s.dense_id.data[s.dense_id.count - 1]? =
            some (s.dense_id.data.getD (s.count - 1) 0) := by
          rw [hDc]
          exact hlastD
        have h3 := ecs_vec_remove_data_swap s.dense_id (s.sparse.getD k 0)
          (s.dense_id.data.getD (s.count - 1) 0) (by rw [hDc]; omega) hDlast
        rwa [hDc] at h3
      refine ⟨⟨?_, ?_, ?_, ?_, ?_⟩, ?_⟩
      · show (ecs_vec_remove s.dense_element (s.sparse.getD k 0)).data.length = s.count - 1
        rw [hPe]
        simp [hP]
      · show (ecs_vec_remove s.dense_id (s.sparse.getD k 0)).data.length = s.count - 1
        rw [hDe]
        simp [hD]
      · show (ecs_vec_remove s.dense_element (s.sparse.getD k 0)).count = s.count - 1
        rw [ecs_vec_remove_count, hPc]
      · show (ecs_vec_remove s.dense_id (s.sparse.getD k 0)).count = s.count - 1
        rw [ecs_vec_remove_count, hDc]
      · show (s.sparse.set (s.dense_id.data.getD (s.count - 1) 0) (s.sparse.getD k 0)).length
            = s.sparse_cap
        rw [List.length_set]
        exact hSP
      · intro j hj
        have hj2 : j < s.count - 1 := hj
        show (s.sparse.set (s.dense_id.data.getD (s.count - 1) 0) (s.sparse.getD k 0))[
            (ecs_vec_remove s.dense_id (s.sparse.getD k 0)).data.getD j 0]? = some j
        rw [hDe, getD_take _ _ _ _ hj2]
        by_cases hji : j = s.sparse.getD k 0
        · rw [hji, getD_set_self _ _ _ _ (by omega)]
          exact List.getElem?_set_self hmklen
        · rw [getD_set_ne _ _ _ _ _ (fun hc => hji hc.symm)]
          have hkeyj : s.dense_id.data[j]? = some (s.dense_id.data.getD j 0) :=
            getD_getElem? _ _ _ (by omega)
          have hne2 : s.dense_id.data.getD (s.count - 1) 0 ≠ s.dense_id.data.getD j 0 := by
            intro hc
            have h4 := sparseInv_inj s hinv (s.count - 1) j _ (by omega) (by omega)
              hlastD (by rw [hkeyj, hc])
            omega
          rw [List.getElem?_set_ne hne2]
          exact hinv j (by omega)

theorem ecs_sparse_add_count_eq (s : SparseSet) (k : Nat) (junk : List Nat)
    (h2 : ecs_sparse_has s k = false) :
    (ecs_sparse_add s k junk).1.count = s.count + 1 :=
  (ecs_sparse_add_state s k junk h2).2.2.2.1

theorem ecs_sparse_remove_count_eq (s : SparseSet) (k : Nat)
    (h : ecs_sparse_has s k = true) :
    (ecs_sparse_remove s k).count = s.count - 1 := by
  by_cases heq : s.sparse.getD k 0 = s.count - 1
  · rw [ecs_sparse_remove_state_last s k h heq]
  · rw [ecs_sparse_remove_state_swap s k h heq]

theorem ecs_sparse_has_add (s : SparseSet) (k : Nat) (junk : List Nat) (k2 : Nat)
    (hg : goodState s) (hk : k < s.sparse_cap) (h2 : ecs_sparse_has s k = false) :
    (ecs_sparse_has (ecs_sparse_add s k junk).1 k2 = true ↔
      (k2 = k ∨ ecs_sparse_has s k2 = true)) := by
  obtain ⟨⟨hP, hD, hPc, hDc, hSP⟩, hinv⟩ := hg
  obtain ⟨e1, e2, e3, e4, _, _, _, _⟩ := ecs_sparse_add_state s k junk h2
  constructor
  · intro hh
    obtain ⟨j, hj1, hj2, hj3⟩ := (ecs_sparse_has_iff _ k2).mp hh
    rw [e3] at hj1
    rw [e4] at hj2
    rw [e2] at hj3
    by_cases hk2 : k2 = k
    · left
      exact hk2
    · right
      rw [List.getElem?_set_ne (fun hc => hk2 hc.symm)] at hj1
      have hjlt : j < s.count := by
        rcases (by omega : j < s.count ∨ j = s.count) with hlt | heqj
        · exact hlt
        · exfalso
          rw [heqj, ← hD, List.getElem?_concat_length] at hj3
          exact hk2 (Option.some.inj hj3).symm
      rw [List.getElem?_append_left (by omega)] at hj3
      exact (ecs_sparse_has_iff s k2).mpr ⟨j, hj1, hjlt, hj3⟩
  · intro hh
    rcases hh with hk2 | hh
    · subst hk2
      refine (ecs_sparse_has_iff _ k2).mpr ⟨s.count, ?_, ?_, ?_⟩
      · rw [e3]
        exact List.getElem?_set_self (by rw [hSP]; exact hk)
      · rw [e4]
        omega
      · rw [e2, ← hD, List.getElem?_concat_length]
    · obtain ⟨j, hj1, hj2, hj3⟩ := (ecs_sparse_has_iff s k2).mp hh
      refine (ecs_sparse_has_iff _ k2).mpr ⟨j, ?_, ?_, ?_⟩
      · rw [e3]
        have hk2 : k ≠ k2 := by
          intro hc
          subst hc
          rw [(ecs_sparse_has_iff s k).mpr ⟨j, hj1, hj2, hj3⟩] at h2
          exact Bool.noConfusion h2
        rw [List.getElem?_set_ne hk2]
        exact hj1
      · rw [e4]
        omega
      · rw [e2, List.getElem?_append_left (by omega)]
        exact hj3

theorem ecs_sparse_has_remove (s : SparseSet) (k k2 : Nat)
    (hg : goodState s) (h : ecs_sparse_has s k = true) :
    (ecs_sparse_has (ecs_sparse_remove s k) k2 = true ↔
      (k2 ≠ k ∧ ecs_sparse_has s k2 = true)) := by
  obtain ⟨⟨hP, hD, hPc, hDc, hSP⟩, hinv⟩ := hg
  obtain ⟨i, hsk, hi, hDik⟩ := (ecs_sparse_has_iff s k).mp h
  have hgd : s.sparse.getD k 0 = i := sparse_getD_of_getElem s k i hsk
  have hlastD : s.dense_id.data[s.count - 1]? =
      some (s.dense_id.data.getD (s.count - 1) 0) :=
    getD_getElem? _ _ _ (by omega)
  have hSPmk : s.sparse[s.dense_id.data.getD (s.count - 1) 0]? = some (s.count - 1) :=
    hinv _ (by omega)
  have hmklen : s.dense_id.data.getD (s.count - 1) 0 < s.sparse.length :=
    lt_of_getElem?_some _ _ _ hSPmk
  have hmk_has : ecs_sparse_has s (s.dense_id.data.getD (s.count - 1) 0) = true :=
    (ecs_sparse_has_iff s _).mpr ⟨s.count - 1, hSPmk, by omega, hlastD⟩
  by_cases heq : s.sparse.getD k 0 = s.count - 1
  · have hstate := ecs_sparse_remove_state_last s k h heq
    have hieq : i = s.count - 1 := by rw [← hgd, heq]
    have hsp2 : (ecs_sparse_remove s k).sparse = s.sparse := by rw [hstate]
    have hc2 : (ecs_sparse_remove s k).count = s.count - 1 := by rw [hstate]
    have hd2 : (ecs_sparse_remove s k).dense_id.data =
        s.dense_id.data.take (s.count - 1) := by
      rw [hstate]
      show (ecs_vec_remove s.dense_id (s.sparse.getD k 0)).data =
        s.dense_id.data.take (s.count - 1)
      have h3 := ecs_vec_remove_data_eq_last s.dense_id (s.sparse.getD k 0)
        (by rw [hDc]; exact heq)
      rwa [hDc] at h3
    constructor
    · intro hh
      obtain ⟨j, hj1, hj2, hj3⟩ := (ecs_sparse_has_iff _ k2).mp hh
      rw [hsp2] at hj1
      rw [hc2] at hj2
      rw [hd2, List.getElem?_take_of_lt hj2] at hj3
      constructor
      · intro hc
        subst hc
        rw [hj1] at hsk
        have hji : j = i := Option.some.inj hsk
        omega
      · exact (ecs_sparse_has_iff s k2).mpr ⟨j, hj1, by omega, hj3⟩
    · intro hh
      obtain ⟨hne2, hh2⟩ := hh
      obtain ⟨j, hj1, hj2, hj3⟩ := (ecs_sparse_has_iff s k2).mp hh2
      have hjne : j ≠ s.count - 1 := by
        intro hc
        have hji : j = i := by omega
        rw [hji, hDik] at hj3
        exact hne2 (Option.some.inj hj3).symm
      refine (ecs_sparse_has_iff _ k2).mpr ⟨j, ?_, ?_, ?_⟩
      · rw [hsp2]
        exact hj1
      · rw [hc2]
        omega
      · rw [hd2, List.getElem?_take_of_lt (by omega)]
        exact hj3
  · have hstate := ecs_sparse_remove_state_swap s k h heq
    have hidx : i < s.count - 1 := by
      rw [hgd] at heq
      omega
    have hmkne : s.dense_id.data.getD (s.count - 1) 0 ≠ k := by
      intro hc
      rw [hc] at hlastD
      have := sparseInv_inj s hinv (s.count - 1) i k (by omega) hi hlastD hDik
      omega
    have hsp2 : (ecs_sparse_remove s k).sparse =
        s.sparse.set (s.dense_id.data.getD (s.count - 1) 0) i := by
      rw [hstate, hgd]
    have hc2 : (ecs_sparse_remove s k).count = s.count - 1 := by rw [hstate]
    have hd2 : (ecs_sparse_remove s k).dense_id.data =
        (s.dense_id.data.set i (s.dense_id.data.getD (s.count - 1) 0)).take
          (s.count - 1) := by
      rw [hstate]
      show (ecs_vec_remove s.dense_id (s.sparse.getD k 0)).data = _
      rw [hgd]
      have hDlast : s.dense_id.data[s.dense_id.count - 1]? =
          some (s.dense_id.data.getD (s.count - 1) 0) := by
        rw [hDc]
        exact hlastD
      have h3 := ecs_vec_remove_data_swap s.dense_id i
        (s.dense_id.data.getD (s.count - 1) 0) (by rw [hDc]; omega) hDlast
      rw [hDc] at h3
      exact h3
    constructor
    · intro hh
      obtain ⟨j, hj1, hj2, hj3⟩ := (ecs_sparse_has_iff _ k2).mp hh
      rw [hsp2] at hj1
      rw [hc2] at hj2
      rw [hd2, List.getElem?_take_of_lt hj2] at hj3
      by_cases hk2mk : k2 = s.dense_id.data.getD (s.count - 1) 0
      · subst hk2mk
        exact ⟨fun hc => hmkne (by rw [← hc]), hmk_has⟩
      · rw [List.getElem?_set_ne (fun hc => hk2mk hc.symm)] at hj1
        have hjni : j ≠ i := by
          intro hc
          rw [hc, List.getElem?_set_self (by omega)] at hj3
          exact hk2mk (Option.some.inj hj3).symm
        rw [List.getElem?_set_ne (fun hc => hjni hc.symm)] at hj3
        constructor
        · intro hc
          subst hc
          rw [hj1] at hsk
          exact hjni (Option.some.inj hsk)
        · exact (ecs_sparse_has_iff s k2).mpr ⟨j, hj1, by omega, hj3⟩
    · intro hh
      obtain ⟨hne2, hh2⟩ := hh
      obtain ⟨j, hj1, hj2, hj3⟩ := (ecs_sparse_has_iff s k2).mp hh2
      by_cases hk2mk : k2 = s.dense_id.data.getD (s.count - 1) 0
      · subst hk2mk
        refine (ecs_sparse_has_iff _ _).mpr ⟨i, ?_, ?_, ?_⟩
        · rw [hsp2]
          exact List.getElem?_set_self hmklen
        · rw [hc2]
          exact hidx
        · rw [hd2, List.getElem?_take_of_lt hidx,
            List.getElem?_set_self (by omega)]
      · have hjne : j ≠ s.count - 1 := by
          intro hc
          rw [hc] at hj3
          rw [hj3] at hlastD
          exact hk2mk (Option.some.inj hlastD)
        have hjni : j ≠ i := by
          intro hc
          rw [hc] at hj3
          rw [hj3] at hDik
          exact hne2 (Option.some.inj hDik.symm).symm
        refine (ecs_sparse_has_iff _ _).mpr ⟨j, ?_, ?_, ?_⟩
        · rw [hsp2, List.getElem?_set_ne (fun hc => hk2mk hc.symm)]
          exact hj1
        · rw [hc2]
          omega
        · rw [hd2, List.getElem?_take_of_lt (by omega),
            List.getElem?_set_ne (fun hc => hjni hc.symm)]
          exact hj3

theorem ecs_sparse_init_good (es cap : Nat) : goodState (ecs_sparse_init es cap) := by
  refine ⟨⟨rfl, rfl, rfl, rfl, ?_⟩, ?_⟩
  · simp [ecs_sparse_init]
  · intro i hi
    have h0 : (ecs_sparse_init es cap).count = 0 := rfl
    omega

theorem ecs_sparse_has_init (es cap k : Nat) :
    ecs_sparse_has (ecs_sparse_init es cap) k = false := by
  unfold ecs_sparse_has
  cases h : (ecs_sparse_init es cap).sparse[k]? with
  | none => rfl
  | some i =>
      have h0 : (ecs_sparse_init es cap).count = 0 := rfl
      rw [h0]
      simp

theorem runOp_good (s : SparseSet) (op : SpOp)
    (hok : opOk s.sparse_cap op = true) (hg : goodState s) :
    goodState (runOp s op) := by
  cases op with
  | addOp k j =>
      have hk : k < s.sparse_cap := by simpa [opOk] using hok
      exact ecs_sparse_add_preserves_good s k j hg hk
  | removeOp k => exact ecs_sparse_remove_preserves_good s k hg

theorem runOp_sparse_cap (s : SparseSet) (op : SpOp) :
    (runOp s op).sparse_cap = s.sparse_cap := by
  cases op with
  | addOp k j => exact ecs_sparse_add_sparse_cap s k j
  | removeOp k => exact ecs_sparse_remove_sparse_cap s k

theorem runOps_good (ops : List SpOp) : ∀ (s : SparseSet),
    (∀ op ∈ ops, opOk s.sparse_cap op = true) → goodState s →
    goodState (runOps s ops) ∧ (runOps s ops).sparse_cap = s.sparse_cap := by
  induction ops with
  | nil =>
      intro s _ hg
      exact ⟨hg, rfl⟩
  | cons op ops ih =>
      intro s hops hg
      have hok := hops op (List.mem_cons_self op ops)
      have hg2 := runOp_good s op hok hg
      have hcap := runOp_sparse_cap s op
      have hops2 : ∀ op2 ∈ ops, opOk (runOp s op).sparse_cap op2 = true := by
        rw [hcap]
        intro op2 h2
        exact hops op2 (List.mem_cons_of_mem op h2)
      have e1 : runOps s (op :: ops) = runOps (runOp s op) ops := rfl
      rw [e1]
      have h3 := ih (runOp s op) hops2 hg2
      exact ⟨h3.1, by rw [h3.2, hcap]⟩

theorem goodState_bidir (s : SparseSet) (hg : goodState s) : sparseBidir s := by
  obtain ⟨⟨hP, hD, hPc, hDc, hSP⟩, hinv⟩ := hg
  constructor
  · intro i hi
    have hi2 : i < s.count := hi
    have hkey : s.dense_id.data[i]? = some (s.dense_id.data.getD i 0) :=
      getD_getElem? _ _ _ (by omega)
    have hsp := hinv i hi2
    refine ⟨(ecs_sparse_has_iff s _).mpr ⟨i, hsp, hi2, hkey⟩, ?_⟩
    exact sparse_getD_of_getElem s _ i hsp
  · intro k hk
    obtain ⟨i, hsk, hi, hDik⟩ := (ecs_sparse_has_iff s k).mp hk
    have hgd : s.sparse.getD k 0 = i := sparse_getD_of_getElem s k i hsk
    constructor
    · rw [hgd]
      exact hi
    · rw [hgd]
      exact dense_getD_of_getElem s i k hDik

/-- C1: bidirectional consistency: in every state reachable from an
initialized sparse set by in-range adds and removes, every dense slot
`i < count` holds a mapped key whose lookup resolves back to `i`, and
every mapped key's sparse entry is a dense index below `count` whose
owning-key slot is that key; both mutations preserve the property (and
the maintained internal invariant). -/
theorem C1_bidirectional_invariant :
    (∀ (es cap : Nat) (s : SparseSet),
      reachableFrom es cap s → goodState s ∧ sparseBidir s) ∧
    (∀ s : SparseSet, goodState s →
      (∀ (k : Nat) (junk : List Nat), k < s.sparse_cap →
        goodState (ecs_sparse_add s k junk).1 ∧ sparseBidir (ecs_sparse_add s k junk).1) ∧
      (∀ k : Nat,
        goodState (ecs_sparse_remove s k) ∧ sparseBidir (ecs_sparse_remove s k))) := by
  constructor
  · rintro es cap s ⟨ops, hops, rfl⟩
    have h := runOps_good ops (ecs_sparse_init es cap) hops (ecs_sparse_init_good es cap)
    exact ⟨h.1, goodState_bidir _ h.1⟩
  · intro s hg
    constructor
    · intro k junk hk
      have h := ecs_sparse_add_preserves_good s k junk hg hk
      exact ⟨h, goodState_bidir _ h⟩
    · intro k
      have h := ecs_sparse_remove_preserves_good s k hg
      exact ⟨h, goodState_bidir _ h⟩

/-- C1 witness: the property holds in the concrete reachable state built
by adding keys 0 and 1 and removing key 0, and is preserved by one more
in-range add on that state. -/
theorem C1_bidirectional_invariant_witness :
    (goodState (runOps (ecs_sparse_init 4 4)
        [SpOp.addOp 0 [10], SpOp.addOp 1 [20], SpOp.removeOp 0]) ∧
      sparseBidir (runOps (ecs_sparse_init 4 4)
        [SpOp.addOp 0 [10], SpOp.addOp 1 [20], SpOp.removeOp 0])) ∧
    (goodState (ecs_sparse_add (runOps (ecs_sparse_init 4 4)
        [SpOp.addOp 0 [10], SpOp.addOp 1 [20], SpOp.removeOp 0]) 2 [30]).1 ∧
      sparseBidir (ecs_sparse_add (runOps (ecs_sparse_init 4 4)
        [SpOp.addOp 0 [10], SpOp.addOp 1 [20], SpOp.removeOp 0]) 2 [30]).1) :=
  ⟨C1_bidirectional_invariant.1 4 4 _
      ⟨[SpOp.addOp 0 [10], SpOp.addOp 1 [20], SpOp.removeOp 0], by decide, rfl⟩,
    (C1_bidirectional_invariant.2 (runOps (ecs_sparse_init 4 4)
        [SpOp.addOp 0 [10], SpOp.addOp 1 [20], SpOp.removeOp 0]) (by decide)).1
      2 [30] (by decide)⟩

/-- The spec's abstract two-state machine on a key: `add` maps an
unmapped key and fails (leaving the set unchanged) on a mapped one;
`remove` unmaps a mapped key and is a no-op on an unmapped one.  The
abstract state is the finite set of currently mapped keys. -/
def absOp (A : Finset Nat) : SpOp → Finset Nat
  | .addOp k _ => if k ∈ A then A else insert k A
  | .removeOp k => A.erase k

/-- Abstract mapped-key set after a sequence of operations, starting
empty. -/
def absRun (ops : List SpOp) : Finset Nat :=
  ops.foldl absOp ∅

theorem runOp_refines (s : SparseSet) (A : Finset Nat) (op : SpOp)
    (hok : opOk s.sparse_cap op = true) (hg : goodState s)
    (hR : ∀ k, ecs_sparse_has s k = true ↔ k ∈ A) (hc : s.count = A.card) :
    (∀ k, ecs_sparse_has (runOp s op) k = true ↔ k ∈ absOp A op) ∧
    (runOp s op).count = (absOp A op).card := by
  cases op with
  | addOp k j =>
      have hk : k < s.sparse_cap := by simpa [opOk] using hok
      by_cases hh : ecs_sparse_has s k = true
      · have hmem : k ∈ A := (hR k).mp hh
        have e1 : runOp s (SpOp.addOp k j) = s := ecs_sparse_add_noop s k j hh
        have e2 : absOp A (SpOp.addOp k j) = A := by simp [absOp, hmem]
        rw [e1, e2]
        exact ⟨hR, hc⟩
      · have h2 : ecs_sparse_has s k = false := by simpa using hh
        have hmem : k ∉ A := fun hm => hh ((hR k).mpr hm)
        have e2 : absOp A (SpOp.addOp k j) = insert k A := by simp [absOp, hmem]
        rw [e2]
        constructor
        · intro k2
          have h3 := ecs_sparse_has_add s k j k2 hg hk h2
          rw [Finset.mem_insert]
          rw [show runOp s (SpOp.addOp k j) = (ecs_sparse_add s k j).1 from rfl, h3]
          constructor
          · rintro (hx | hx)
            · exact Or.inl hx
            · exact Or.inr ((hR k2).mp hx)
          · rintro (hx | hx)
            · exact Or.inl hx
            · exact Or.inr ((hR k2).mpr hx)
        · show (ecs_sparse_add s k j).1.count = (insert k A).card
          rw [ecs_sparse_add_count_eq s k j h2, Finset.card_insert_of_not_mem hmem, hc]
  | removeOp k =>
      by_cases hh : ecs_sparse_has s k = true
      · have hmem : k ∈ A := (hR k).mp hh
        constructor
        · intro k2
          have h3 := ecs_sparse_has_remove s k k2 hg hh
          rw [show runOp s (SpOp.removeOp k) = ecs_sparse_remove s k from rfl, h3]
          show k2 ≠ k ∧ ecs_sparse_has s k2 = true ↔ k2 ∈ A.erase k
          rw [Finset.mem_erase]
          constructor
          · rintro ⟨hx1, hx2⟩
            exact ⟨hx1, (hR k2).mp hx2⟩
          · rintro ⟨hx1, hx2⟩
            exact ⟨hx1, (hR k2).mpr hx2⟩
        · show (ecs_sparse_remove s k).count = (A.erase k).card
          rw [ecs_sparse_remove_count_eq s k hh, Finset.card_erase_of_mem hmem, hc]
      · have h2 : ecs_sparse_has s k = false := by simpa using hh
        have hmem : k ∉ A := fun hm => hh ((hR k).mpr hm)
        have e1 : runOp s (SpOp.removeOp k) = s := C4_remove_absent_noop s k h2
        have e2 : absOp A (SpOp.removeOp k) = A := by
          simp [absOp, hmem]
        rw [e1, e2]
        exact ⟨hR, hc⟩

theorem runOps_refines (ops : List SpOp) : ∀ (s : SparseSet) (A : Finset Nat),
    (∀ op ∈ ops, opOk s.sparse_cap op = true) → goodState s →
    (∀ k, ecs_sparse_has s k = true ↔ k ∈ A) → s.count = A.card →
    (∀ k, ecs_sparse_has (runOps s ops) k = true ↔ k ∈ ops.foldl absOp A) ∧
    (runOps s ops).count = (ops.foldl absOp A).card := by
  induction ops with
  | nil =>
      intro s A _ _ hR hc
      exact ⟨hR, hc⟩
  | cons op ops ih =>
      intro s A hops hg hR hc
      have hok := hops op (List.mem_cons_self op ops)
      have hstep := runOp_refines s A op hok hg hR hc
      have hg2 := runOp_good s op hok hg
      have hops2 : ∀ op2 ∈ ops, opOk (runOp s op).sparse_cap op2 = true := by
        rw [runOp_sparse_cap]
        intro op2 h2
        exact hops op2 (List.mem_cons_of_mem op h2)
      have e1 : runOps s (op :: ops) = runOps (runOp s op) ops := rfl
      have e2 : (op :: ops).foldl absOp A = ops.foldl absOp (absOp A op) := rfl
      rw [e1, e2]
      exact ih (runOp s op) (absOp A op) hops2 hg2 hstep.1 hstep.2

/-- C6: abstract-set correctness over all operation sequences: starting
from an initialized sparse set and applying any sequence of adds and
removes on keys inside `[0, sparse_cap)` (adds failing on mapped keys,
removes ignoring unmapped ones, as the two-state machine `absOp`
prescribes), `count()` equals the number of currently mapped keys and
`has(k)` holds exactly for the keys added and not since removed. -/
theorem C6_abstract_set_correctness :
    ∀ (es cap : Nat) (ops : List SpOp),
      (∀ op ∈ ops, opOk cap op = true) →
      (∀ k, ecs_sparse_has (runOps (ecs_sparse_init es cap) ops) k = true
        ↔ k ∈ absRun ops) ∧
      ecs_sparse_count (runOps (ecs_sparse_init es cap) ops) = (absRun ops).card := by
  intro es cap ops hops
  have hR0 : ∀ k, ecs_sparse_has (ecs_sparse_init es cap) k = true ↔ k ∈ (∅ : Finset Nat) := by
    intro k
    rw [ecs_sparse_has_init]
    simp
  have h := runOps_refines ops (ecs_sparse_init es cap) ∅ hops
    (ecs_sparse_init_good es cap) hR0 (by simp [ecs_sparse_init])
  exact h

/-- C6 witness: for the concrete sequence add 0, add 1, remove 1, add 3
on a capacity-4 set, the concrete count equals the abstract mapped-set
cardinality and membership of key 3 agrees with the abstract set. -/
theorem C6_abstract_set_correctness_witness :
    ecs_sparse_count (runOps (ecs_sparse_init 4 4)
        [SpOp.addOp 0 [10], SpOp.addOp 1 [20], SpOp.removeOp 1, SpOp.addOp 3 [40]])
      = (absRun [SpOp.addOp 0 [10], SpOp.addOp 1 [20], SpOp.removeOp 1, SpOp.addOp 3 [40]]).card ∧
    (ecs_sparse_has (runOps (ecs_sparse_init 4 4)
        [SpOp.addOp 0 [10], SpOp.addOp 1 [20], SpOp.removeOp 1, SpOp.addOp 3 [40]]) 3 = true
      ↔ 3 ∈ absRun [SpOp.addOp 0 [10], SpOp.addOp 1 [20], SpOp.removeOp 1, SpOp.addOp 3 [40]]) :=
  ⟨(C6_abstract_set_correctness 4 4 _ (by decide)).2,
    (C6_abstract_set_correctness 4 4 _ (by decide)).1 3⟩

/-- C2: swap-remove correctness: removing a present key mapped at dense
index `i` (with `last = count-1`) shrinks the sparse-set count and both
dense arrays' counts by one; when `i != last` the payload and owning
key formerly at `last` now sit in slot `i` and the relocated key's
lookup resolves to `i` (the key stays mapped); when `i == last` there
is no relocation: the sparse array is untouched and both dense arrays
are just truncated. -/
theorem C2_swap_remove_correctness :
    ∀ (s : SparseSet) (k : Nat), goodState s → ecs_sparse_has s k = true →
      (ecs_sparse_remove s k).count = s.count - 1 ∧
      (ecs_sparse_remove s k).dense_element.count = s.count - 1 ∧
      (ecs_sparse_remove s k).dense_id.count = s.count - 1 ∧
      (s.sparse.getD k 0 ≠ s.count - 1 →
        (ecs_sparse_remove s k).dense_element.data[s.sparse.getD k 0]? =
          s.dense_element.data[s.count - 1]? ∧
        (ecs_sparse_remove s k).dense_id.data[s.sparse.getD k 0]? =
          s.dense_id.data[s.count - 1]? ∧
        (ecs_sparse_remove s k).sparse.getD (s.dense_id.data.getD (s.count - 1) 0) 0 =
          s.sparse.getD k 0 ∧
        ecs_sparse_has (ecs_sparse_remove s k)
          (s.dense_id.data.getD (s.count - 1) 0) = true) ∧
      (s.sparse.getD k 0 = s.count - 1 →
        (ecs_sparse_remove s k).sparse = s.sparse ∧
        (ecs_sparse_remove s k).dense_element.data =
          s.dense_element.data.take (s.count - 1) ∧
        (ecs_sparse_remove s k).dense_id.data =
          s.dense_id.data.take (s.count - 1)) := by
  intro s k hg h
  obtain ⟨⟨hP, hD, hPc, hDc, hSP⟩, hinv⟩ := id hg
  obtain ⟨i, hsk, hi, hDik⟩ := (ecs_sparse_has_iff s k).mp h
  have hgd : s.sparse.getD k 0 = i := sparse_getD_of_getElem s k i hsk
  have hlastD : s.dense_id.data[s.count - 1]? =
      some (s.dense_id.data.getD (s.count - 1) 0) :=
    getD_getElem? _ _ _ (by omega)
  have hSPmk : s.sparse[s.dense_id.data.getD (s.count - 1) 0]? = some (s.count - 1) :=
    hinv _ (by omega)
  have hmklen : s.dense_id.data.getD (s.count - 1) 0 < s.sparse.length :=
    lt_of_getElem?_some _ _ _ hSPmk
  have hmk_has : ecs_sparse_has s (s.dense_id.data.getD (s.count - 1) 0) = true :=
    (ecs_sparse_has_iff s _).mpr ⟨s.count - 1, hSPmk, by omega, hlastD⟩
  have hPcount : (ecs_sparse_remove s k).dense_element.count = s.count - 1 := by
    by_cases heq : s.sparse.getD k 0 = s.count - 1
    · rw [ecs_sparse_remove_state_last s k h heq]
      show (ecs_vec_remove s.dense_element (s.sparse.getD k 0)).count = s.count - 1
      rw [ecs_vec_remove_count, hPc]
    · rw [ecs_sparse_remove_state_swap s k h heq]
      show (ecs_vec_remove s.dense_element (s.sparse.getD k 0)).count = s.count - 1
      rw [ecs_vec_remove_count, hPc]
  have hDcount : (ecs_sparse_remove s k).dense_id.count = s.count - 1 := by
    by_cases heq : s.sparse.getD k 0 = s.count - 1
    · rw [ecs_sparse_remove_state_last s k h heq]
      show (ecs_vec_remove s.dense_id (s.sparse.getD k 0)).count = s.count - 1
      rw [ecs_vec_remove_count, hDc]
    · rw [ecs_sparse_remove_state_swap s k h heq]
      show (ecs_vec_remove s.dense_id (s.sparse.getD k 0)).count = s.count - 1
      rw [ecs_vec_remove_count, hDc]
  refine ⟨ecs_sparse_remove_count_eq s k h, hPcount, hDcount, ?_, ?_⟩
  · intro hne
    have hidx : i < s.count - 1 := by
      rw [hgd] at hne
      omega
    have hstate := ecs_sparse_remove_state_swap s k h hne
    have hPlast : s.dense_element.data[s.count - 1]? =
        some (s.dense_element.data.getD (s.count - 1) []) :=
      getD_getElem? _ _ _ (by omega)
    have hPe : (ecs_sparse_remove s k).dense_element.data =
        (s.dense_element.data.set i
          (s.dense_element.data.getD (s.count - 1) [])).take (s.count - 1) := by
      rw [hstate]
      show (ecs_vec_remove s.dense_element (s.sparse.getD k 0)).data = _
      rw [hgd]
      have h3 := ecs_vec_remove_data_swap s.dense_element i
        (s.dense_element.data.getD (s.count - 1) []) (by rw [hPc]; omega)
        (by rw [hPc]; exact hPlast)
      rwa [hPc] at h3
    have hDe : (ecs_sparse_remove s k).dense_id.data =
        (s.dense_id.data.set i
          (s.dense_id.data.getD (s.count - 1) 0)).take (s.count - 1) := by
      rw [hstate]
      show (ecs_vec_remove s.dense_id (s.sparse.getD k 0)).data = _
      rw [hgd]
      have h3 := ecs_vec_remove_data_swap s.dense_id i
        (s.dense_id.data.getD (s.count - 1) 0) (by rw [hDc]; omega)
        (by rw [hDc]; exact hlastD)
      rwa [hDc] at h3
    have hmkne : s.dense_id.data.getD (s.count - 1) 0 ≠ k := by
      intro hc
      rw [hc] at hlastD
      have h4 := sparseInv_inj s hinv (s.count - 1) i k (by omega) hi hlastD hDik
      omega
    refine ⟨?_, ?_, ?_, ?_⟩
    · rw [hPe, hgd, List.getElem?_take_of_lt hidx,
        List.getElem?_set_self (by omega), hPlast]
    · rw [hDe, hgd, List.getElem?_take_of_lt hidx,
        List.getElem?_set_self (by omega), hlastD]
    · rw [hstate]
      show (s.sparse.set (s.dense_id.data.getD (s.count - 1) 0) (s.sparse.getD k 0)).getD
          (s.dense_id.data.getD (s.count - 1) 0) 0 = s.sparse.getD k 0
      exact getD_set_self _ _ _ _ hmklen
    · exact (ecs_sparse_has_remove s k _ hg h).mpr ⟨hmkne, hmk_has⟩
  · intro heq
    have hstate := ecs_sparse_remove_state_last s k h heq
    refine ⟨by rw [hstate], ?_, ?_⟩
    · rw [hstate]
      show (ecs_vec_remove s.dense_element (s.sparse.getD k 0)).data = _
      have h3 := ecs_vec_remove_data_eq_last s.dense_element (s.sparse.getD k 0)
        (by rw [hPc]; exact heq)
      rwa [hPc] at h3
    · rw [hstate]
      show (ecs_vec_remove s.dense_id (s.sparse.getD k 0)).data = _
      have h3 := ecs_vec_remove_data_eq_last s.dense_id (s.sparse.getD k 0)
        (by rw [hDc]; exact heq)
      rwa [hDc] at h3

/-- C2 witness: removing key 0 (dense index 0) from the concrete
three-element state relocates the last element (key 2): the removed
state's count drops by one and key 2 stays mapped. -/
theorem C2_swap_remove_correctness_witness :
    (ecs_sparse_remove (runOps (ecs_sparse_init 4 4)
        [SpOp.addOp 0 [10], SpOp.addOp 1 [20], SpOp.addOp 2 [30]]) 0).count
      = (runOps (ecs_sparse_init 4 4)
          [SpOp.addOp 0 [10], SpOp.addOp 1 [20], SpOp.addOp 2 [30]]).count - 1 ∧
    ecs_sparse_has (ecs_sparse_remove (runOps (ecs_sparse_init 4 4)
        [SpOp.addOp 0 [10], SpOp.addOp 1 [20], SpOp.addOp 2 [30]]) 0)
      ((runOps (ecs_sparse_init 4 4)
          [SpOp.addOp 0 [10], SpOp.addOp 1 [20], SpOp.addOp 2 [30]]).dense_id.data.getD
        ((runOps (ecs_sparse_init 4 4)
          [SpOp.addOp 0 [10], SpOp.addOp 1 [20], SpOp.addOp 2 [30]]).count - 1) 0) = true :=
  ⟨(C2_swap_remove_correctness (runOps (ecs_sparse_init 4 4)
      [SpOp.addOp 0 [10], SpOp.addOp 1 [20], SpOp.addOp 2 [30]]) 0
      (by decide) (by decide)).1,
   ((C2_swap_remove_correctness (runOps (ecs_sparse_init 4 4)
      [SpOp.addOp 0 [10], SpOp.addOp 1 [20], SpOp.addOp 2 [30]]) 0
      (by decide) (by decide)).2.2.2.1 (by decide)).2.2.2⟩
